import Mathlib

/-!
Verification development for the macro player in `macro_toggle.py`.

The embedding models the Windows execution paths of the program (the
`USE_PDI = True` branches, which the repository targets): the
pydirectinput backend is abstracted as an oracle `Backend : BCall → Bool`
telling, for each primitive input call, whether that call succeeds or
raises.  A raised backend call is modelled as the call being attempted
(recorded in the call trace) followed by a `backendError`.

Pure data: steps are the JSON dictionaries the program reads, modelled as
a record whose optional fields mirror the `step.get(...)` accesses of
`do_step`; held tokens are the strings `"key:" ++ raw` / `"mouse:" ++ button`
that the program stores in `HoldState._held`.
-/

/-- A primitive backend input call.  `pydirectinput.press` is its documented
down-then-up pair, and `pydirectinput.click(clicks = n)` is `n` such pairs. -/
inductive BCall where
  | keyDown (k : String)
  | keyUp (k : String)
  | mouseDown (b : String)
  | mouseUp (b : String)
  | write (t : String)
  | moveRel (x y : Int)
  | moveTo (x y : Int)
  | scroll (dy : Int)
deriving DecidableEq

/-- The backend oracle: `true` means the call succeeds, `false` means the
underlying library call raises. -/
def Backend : Type := BCall → Bool

/-- Python exceptions that the program can raise during step execution:
`ValueError` (with its message), `KeyError` (a missing mandatory dict key),
and any exception escaping a backend call. -/
inductive MErr where
  | valueError (msg : String)
  | keyError
  | backendError
deriving DecidableEq

/-- One step dictionary of the macro definition, with exactly the fields
`do_step` reads.  `Option` fields mirror `step.get` lookups whose absence is
observable (`key` is accessed as `step["key"]` and raises `KeyError` when
missing; `action` / `button` / `mode` have `.get` defaults applied at the
point of use, see `actionOf`, `buttonOf`, `modeOf`). -/
structure Step where
  type : Option String := none
  key : Option String := none
  action : Option String := none
  keys : List String := []
  text : String := ""
  button : Option String := none
  count : Int := 1
  mode : Option String := none
  x : Int := 0
  y : Int := 0
  dx : Int := 0
  dy : Int := 0
  seconds : Int := 0
deriving DecidableEq

/-- `str(step.get("action", "tap"))`. -/
def actionOf (s : Step) : String := s.action.getD "tap"

/-- `str(step.get("button", "left"))`. -/
def buttonOf (s : Step) : String := s.button.getD "left"

/-- `str(step.get("mode", "relative"))`. -/
def modeOf (s : Step) : String := s.mode.getD "relative"

/-- Python `str.strip()`: drop leading and trailing whitespace (defined over
the character list so it evaluates inside the kernel). -/
def pyStrip (s : String) : String :=
  ⟨((s.data.dropWhile Char.isWhitespace).reverse.dropWhile Char.isWhitespace).reverse⟩

/-- Python `str.lower()` (over the character list). -/
def pyLower (s : String) : String :=
  ⟨s.data.map Char.toLower⟩

/-- `PDI_KEY_MAP` from the source: named pynput keys to pydirectinput names,
with `Key.f1` .. `Key.f24` appended by the loop after the literal. -/
def PDI_KEY_MAP : List (String × String) :=
  [("Key.enter", "enter"), ("Key.esc", "esc"), ("Key.tab", "tab"),
   ("Key.space", "space"), ("Key.backspace", "backspace"),
   ("Key.delete", "delete"), ("Key.home", "home"), ("Key.end", "end"),
   ("Key.page_up", "pageup"), ("Key.page_down", "pagedown"),
   ("Key.up", "up"), ("Key.down", "down"), ("Key.left", "left"),
   ("Key.right", "right"), ("Key.shift", "shift"), ("Key.shift_l", "shift"),
   ("Key.shift_r", "shift"), ("Key.ctrl", "ctrl"), ("Key.ctrl_l", "ctrl"),
   ("Key.ctrl_r", "ctrl"), ("Key.alt", "alt"), ("Key.alt_l", "alt"),
   ("Key.alt_r", "alt")] ++
  (List.range 24).map (fun i => ("Key.f" ++ toString (i + 1), "f" ++ toString (i + 1)))

/-- `to_pdi_key`: strip, single characters pass through, otherwise look up the
map with default `raw.replace("Key.", "")`.  Total, mirroring the source. -/
def to_pdi_key (raw : String) : String :=
  let r := pyStrip raw
  if r.length = 1 then r
  else
    match PDI_KEY_MAP.lookup r with
    | some v => v
    | none => r.replace "Key." ""

/-- `to_pdi_button`: strip and lowercase; only `left`/`right`/`middle` are
accepted, anything else raises `ValueError`. -/
def to_pdi_button (btn : String) : Except MErr String :=
  let b := pyLower (pyStrip btn)
  if b = "left" ∨ b = "right" ∨ b = "middle" then .ok b
  else .error (.valueError "button must be left/right/middle")

/-- `HoldState.mark_down`: set insertion (the held set modelled as a
duplicate-free list in insertion order). -/
def mark_down (hold : List String) (t : String) : List String :=
  if t ∈ hold then hold else hold ++ [t]

/-- `HoldState.mark_up`: `set.discard`, removing the token if present. -/
def mark_up (hold : List String) (t : String) : List String :=
  hold.erase t

/-- `t.split(":", 1)` on the token character list: split at the first colon,
`none` when there is no colon (in which case the tuple unpacking in
`release_all` raises `ValueError`). -/
def splitColonList : List Char → Option (List Char × List Char)
  | [] => none
  | c :: cs =>
      if c = ':' then some ([], cs)
      else (splitColonList cs).map (fun p => (c :: p.1, p.2))

/-- `kind, val = t.split(":", 1)` as an `Option`. -/
def splitToken (t : String) : Option (String × String) :=
  (splitColonList t.data).map (fun p => (⟨p.1⟩, ⟨p.2⟩))

/-- The body of the `try` block that `release_all` runs for one token:
the backend calls it attempts (at most one) and the exception, if any,
that the surrounding `except Exception: pass` will swallow. -/
def attemptRelease (B : Backend) (t : String) : List BCall × Option MErr :=
  match splitToken t with
  | none => ([], some (.valueError "unpack"))
  | some (kind, val) =>
      if kind = "key" then
        if B (.keyUp (to_pdi_key val)) then ([.keyUp (to_pdi_key val)], none)
        else ([.keyUp (to_pdi_key val)], some .backendError)
      else if kind = "mouse" then
        match to_pdi_button val with
        | .error e => ([], some e)
        | .ok b =>
            if B (.mouseUp b) then ([.mouseUp b], none)
            else ([.mouseUp b], some .backendError)
      else ([], none)

/-- The best-effort sweep of `release_all`: every token is processed, each
per-token exception is swallowed (`except Exception: pass`), and only the
attempted backend calls remain observable. -/
def sweep (B : Backend) : List String → List BCall
  | [] => []
  | t :: ts => (attemptRelease B t).1 ++ sweep B ts

/-- `HoldState.release_all`: snapshot and clear the held set under the lock,
then run the best-effort sweep over the snapshot.  Returns the new held set
(always empty) and the backend calls attempted. -/
def release_all (B : Backend) (hold : List String) : List String × List BCall :=
  (([] : List String), sweep B hold)

/-- Run a list of backend calls in order, stopping at the first failure,
which Python surfaces as an exception.  Returns the calls attempted and the
error, if any. -/
def runCalls (B : Backend) : List BCall → List BCall × Option MErr
  | [] => ([], none)
  | c :: cs =>
      if B c then (c :: (runCalls B cs).1, (runCalls B cs).2)
      else ([c], some .backendError)

/-- Result of executing one step: the backend calls attempted, the held set
afterwards, and the exception escaping `do_step`, if any. -/
structure ExecOut where
  calls : List BCall
  hold : List String
  err : Option MErr
deriving DecidableEq

/-- Issue a fixed call sequence with no hold-state interaction. -/
def stepCalls (B : Backend) (cs : List BCall) (hold : List String) : ExecOut :=
  ⟨(runCalls B cs).1, hold, (runCalls B cs).2⟩

/-- The dispatch of `do_step` after the wait- and cancellation checks, i.e.
the chain of `if t == ...` branches, following the `USE_PDI` paths. -/
def do_step_core (B : Backend) (s : Step) (hold : List String) : ExecOut :=
  if s.type = some "text" then
    stepCalls B [.write s.text] hold
  else if s.type = some "key" then
    match s.key with
    | none => ⟨[], hold, some .keyError⟩
    | some raw =>
        let k := to_pdi_key raw
        let token := "key:" ++ raw
        if actionOf s = "tap" then
          stepCalls B [.keyDown k, .keyUp k] hold
        else if actionOf s = "press" then
          if B (.keyDown k) then ⟨[.keyDown k], mark_down hold token, none⟩
          else ⟨[.keyDown k], hold, some .backendError⟩
        else if actionOf s = "release" then
          if B (.keyUp k) then ⟨[.keyUp k], mark_up hold token, none⟩
          else ⟨[.keyUp k], hold, some .backendError⟩
        else ⟨[], hold, some (.valueError "key.action must be tap/press/release")⟩
  else if s.type = some "combo" then
    if s.keys = [] then ⟨[], hold, none⟩
    else
      stepCalls B
        (s.keys.map (fun rk => .keyDown (to_pdi_key rk)) ++
         s.keys.reverse.map (fun rk => .keyUp (to_pdi_key rk))) hold
  else if s.type = some "mouse_click" then
    match to_pdi_button (buttonOf s) with
    | .error e => ⟨[], hold, some e⟩
    | .ok b =>
        stepCalls B
          ((List.replicate (max 1 s.count).toNat
            [BCall.mouseDown b, BCall.mouseUp b]).flatten) hold
  else if s.type = some "mouse_button" then
    let token := "mouse:" ++ buttonOf s
    match to_pdi_button (buttonOf s) with
    | .error e => ⟨[], hold, some e⟩
    | .ok b =>
        if actionOf s = "tap" then
          stepCalls B [.mouseDown b, .mouseUp b] hold
        else if actionOf s = "press" then
          if B (.mouseDown b) then ⟨[.mouseDown b], mark_down hold token, none⟩
          else ⟨[.mouseDown b], hold, some .backendError⟩
        else if actionOf s = "release" then
          if B (.mouseUp b) then ⟨[.mouseUp b], mark_up hold token, none⟩
          else ⟨[.mouseUp b], hold, some .backendError⟩
        else ⟨[], hold, some (.valueError "mouse_button.action must be tap/press/release")⟩
  else if s.type = some "mouse_move" then
    if modeOf s = "relative" then stepCalls B [.moveRel s.x s.y] hold
    else if modeOf s = "absolute" then stepCalls B [.moveTo s.x s.y] hold
    else ⟨[], hold, some (.valueError "mouse_move.mode must be relative/absolute")⟩
  else if s.type = some "mouse_scroll" then
    if s.dy ≠ 0 then stepCalls B [.scroll s.dy] hold
    else ⟨[], hold, none⟩
  else ⟨[], hold, some (.valueError "unknown step.type")⟩

/-- `do_step`: a `wait` step is a cancellable sleep with no backend calls;
every other step is skipped entirely when the cancellation signal is set at
entry; otherwise the dispatch `do_step_core` runs. -/
def do_step (B : Backend) (s : Step) (stopSet : Bool) (hold : List String) : ExecOut :=
  if s.type = some "wait" then ⟨[], hold, none⟩
  else if stopSet then ⟨[], hold, none⟩
  else do_step_core B s hold

/-- A resolved pynput key: a named `Key` attribute or a single character
`KeyCode`. -/
inductive PKey where
  | special (name : String)
  | char (c : Char)
deriving DecidableEq

/-- The attribute names of the external pynput `Key` enumeration, used by the
`getattr(Key, name)` lookup in `parse_key_pynput`. -/
def pynputKeyNames : List String :=
  ["alt", "alt_l", "alt_r", "alt_gr", "backspace", "caps_lock",
   "cmd", "cmd_l", "cmd_r", "ctrl", "ctrl_l", "ctrl_r", "delete",
   "down", "end", "enter", "esc", "home", "insert", "left", "menu",
   "num_lock", "page_down", "page_up", "pause", "print_screen", "right",
   "scroll_lock", "shift", "shift_l", "shift_r", "space", "tab", "up",
   "media_play_pause", "media_volume_mute", "media_volume_down",
   "media_volume_up", "media_previous", "media_next"] ++
  (List.range 20).map (fun i => "f" ++ toString (i + 1))

/-- `parse_key_pynput`: strip; a string starting with `Key.` resolves the
remainder against the `Key` enumeration (`ValueError` when unknown); a single
character becomes a `KeyCode`; anything else raises `ValueError`.
Since the string starts with `Key.`, `s.split(".", 1)[1]` is `s.drop 4`. -/
def parse_key_pynput (s : String) : Except MErr PKey :=
  let s := pyStrip s
  if s.startsWith "Key." then
    let name := s.drop 4
    if pynputKeyNames.contains name then .ok (.special name)
    else .error (.valueError "unknown key name")
  else if s.length = 1 then .ok (.char s.front)
  else .error (.valueError "key must be Key.xxx or one character")

/-- The configuration dictionary handed to `MacroTool.__init__` (already past
`load_config`): the fields `__init__` reads. -/
structure Config where
  trigger_hotkey : Option String := none
  quit_hotkey : Option String := none
  trigger_key : Option String := none
  quit_key : Option String := none
  loop : Bool := false
  steps : List Step := []
deriving DecidableEq

/-- Python truthiness of `config.get(...)` on an optional string: absent and
the empty string are both falsy. -/
def truthy : Option String → Option String
  | none => none
  | some s => if s = "" then none else some s

/-- Parse an optional trigger/quit key the way `__init__` does. -/
def optParseKey : Option String → Except MErr (Option PKey)
  | none => .ok none
  | some s => (parse_key_pynput s).map some

/-- The whole mutable state of one `MacroTool` plus its owned `HoldState`
and thread bookkeeping.  `threads` is the list of spawned run threads,
newest first, each flag telling whether that thread is still alive
(`self.thread` is the head).  `pc`, `runErr` are the run position and the
pending fatal error of the alive thread, if any.  `calls` is the global
trace of attempted backend calls, `errLog` the errors logged when a thread
dies. -/
structure Sys where
  trigger_hotkey : Option String := none
  quit_hotkey : Option String := none
  trigger_key : Option PKey := none
  quit_key : Option PKey := none
  loop : Bool := false
  steps : List Step := []
  stopEvent : Bool := false
  threads : List Bool := []
  pc : Nat := 0
  runErr : Option MErr := none
  hold : List String := []
  calls : List BCall := []
  errLog : List MErr := []
deriving DecidableEq

/-- `MacroTool.__init__`: normalise the hotkey strings, parse the optional
trigger/quit keys (a parse failure propagates as the construction error),
and store the macro definition verbatim — no step is inspected here. -/
def MacroTool.init (cfg : Config) : Except MErr Sys :=
  match optParseKey (truthy cfg.trigger_key), optParseKey (truthy cfg.quit_key) with
  | .error e, _ => .error e
  | .ok _, .error e => .error e
  | .ok tk, .ok qk =>
      .ok { trigger_hotkey := (truthy cfg.trigger_hotkey).map pyStrip,
            quit_hotkey := (truthy cfg.quit_hotkey).map pyStrip,
            trigger_key := tk, quit_key := qk,
            loop := cfg.loop, steps := cfg.steps }

/-- `MacroTool.is_running`: the current thread exists and is alive. -/
def isRunning (s : Sys) : Bool := s.threads.headD false

/-- Mark the current thread dead. -/
def killHead : List Bool → List Bool
  | [] => []
  | _ :: ts => false :: ts

/-- The run loop of `_run` is over: cancelled, a fatal error is pending, or a
non-looping macro ran past its last step. -/
def exitCond (s : Sys) : Bool :=
  s.stopEvent || s.runErr.isSome || (!s.loop && decide (s.steps.length ≤ s.pc))

/-- Atomic events of the concurrent system: the control activity calling
`start` / `stop`, the background thread executing its next step, and the
background thread observing that its loop is over and running the `finally`
cleanup before dying. -/
inductive Ev where
  | start
  | stop
  | stepExec
  | threadExit

/-- One atomic event.  `start` is `MacroTool.start` (the running check and
the spawn are atomic under `self.lock`); `stop` is `MacroTool.stop` (set the
cancellation signal, then `release_all`); `stepExec` is the run thread
passing its loop checks and executing one `do_step`; `threadExit` is the run
thread leaving its loop: the `finally` block runs `release_all`, the escaped
error (the code has no `except`) is caught by the thread boundary and
logged, and the thread dies. -/
def stepEv (B : Backend) : Ev → Sys → Sys
  | .start, s =>
      if isRunning s then s
      else { s with stopEvent := false, threads := true :: s.threads,
                    pc := 0, runErr := none }
  | .stop, s =>
      { s with stopEvent := true,
               hold := (release_all B s.hold).1,
               calls := s.calls ++ (release_all B s.hold).2 }
  | .stepExec, s =>
      if isRunning s && s.runErr.isNone && !s.stopEvent then
        match s.steps.get? s.pc with
        | none => s
        | some st =>
            let r := do_step B st s.stopEvent s.hold
            { s with hold := r.hold, calls := s.calls ++ r.calls,
                     runErr := r.err,
                     pc := if s.loop && decide (s.pc + 1 = s.steps.length)
                           then 0 else s.pc + 1 }
      else s
  | .threadExit, s =>
      if isRunning s && exitCond s then
        { s with threads := killHead s.threads,
                 hold := (release_all B s.hold).1,
                 calls := s.calls ++ (release_all B s.hold).2,
                 errLog := s.errLog ++ s.runErr.toList }
      else s

/-- Run a trace of events from a state. -/
def reach (B : Backend) (tr : List Ev) (s : Sys) : Sys :=
  tr.foldl (fun s e => stepEv B e s) s

/-- The initial state of a freshly constructed tool: `Idle`, empty held set,
cancellation clear, no thread ever spawned. -/
def initSys (loop : Bool) (steps : List Step) : Sys :=
  { loop := loop, steps := steps }

/-- Number of alive background execution activities. -/
def aliveCount (s : Sys) : Nat := s.threads.count true

/-- Invariant: every thread but the most recent one is dead. -/
def tailDead (s : Sys) : Prop := ∀ b ∈ s.threads.drop 1, b = false

/-- A held token as actually stored by the program: it splits at its first
colon into a recognized kind, and a mouse token carries a valid button. -/
def goodToken (t : String) : Prop :=
  ∃ kind val, splitToken t = some (kind, val) ∧
    (kind = "key" ∨ (kind = "mouse" ∧ (to_pdi_button val).isOk = true))

/-- A state in the middle of a failed run: one alive thread, a pending fatal
error from an unknown step tag, one held token. -/
def failedRunSys : Sys :=
  { (initSys false []) with
    threads := [true],
    runErr := some (.valueError "unknown step.type"),
    hold := ["key:a"] }

/-- A key step carrying an out-of-enum `action` value. -/
def badActionStep : Step :=
  { type := some "key", key := some "a", action := some "bogus" }

/-- A configuration whose macro contains `badActionStep`. -/
def badActionCfg : Config :=
  { trigger_hotkey := some "f8", steps := [badActionStep] }

section Helpers

lemma runCalls_ok (B : Backend) (cs : List BCall) (hB : ∀ c, B c = true) :
    runCalls B cs = (cs, none) := by
  induction cs with
  | nil => rfl
  | cons c cs ih => simp [runCalls, hB, ih]

lemma attemptRelease_length (B : Backend) (t : String) (h : goodToken t) :
    (attemptRelease B t).1.length = 1 := by
  obtain ⟨kind, val, hs, hk⟩ := h
  rcases hk with hk | ⟨hk, hok⟩
  · subst hk
    cases hB : B (.keyUp (to_pdi_key val)) <;> simp [attemptRelease, hs, hB]
  · subst hk
    cases hb : to_pdi_button val with
    | error e => rw [hb] at hok; simp [Except.isOk, Except.toBool] at hok
    | ok b =>
        cases hB : B (.mouseUp b) <;> simp [attemptRelease, hs, hb, hB]

lemma sweep_append (B : Backend) (h1 h2 : List String) :
    sweep B (h1 ++ h2) = sweep B h1 ++ sweep B h2 := by
  induction h1 with
  | nil => rfl
  | cons t ts ih => simp [sweep, ih]

lemma killHead_headD (l : List Bool) : (killHead l).headD false = false := by
  cases l <;> rfl

lemma drop_one_killHead (l : List Bool) : (killHead l).drop 1 = l.drop 1 := by
  cases l <;> rfl

lemma tailDead_stepEv (B : Backend) (e : Ev) (s : Sys) (h : tailDead s) :
    tailDead (stepEv B e s) := by
  cases e with
  | start =>
      by_cases hr : isRunning s
      · simp [stepEv, hr]; exact h
      · simp only [stepEv, hr, if_false, Bool.false_eq_true, if_neg]
        intro b hb
        simp only [tailDead, List.drop_one] at *
        simp only [List.tail_cons] at hb
        cases hl : s.threads with
        | nil => rw [hl] at hb; cases hb
        | cons hd tl =>
            rw [hl] at hb
            rcases List.mem_cons.mp hb with rfl | hb'
            · have : isRunning s = false := by simpa using hr
              rw [isRunning, hl] at this; simpa using this
            · exact h b (by rw [hl]; simpa using hb')
  | stop => intro b hb; exact h b (by simpa [stepEv] using hb)
  | stepExec =>
      intro b hb
      refine h b ?_
      simp only [stepEv] at hb
      split at hb
      · split at hb
        · exact hb
        · simpa using hb
      · exact hb
  | threadExit =>
      intro b hb
      refine h b ?_
      simp only [stepEv] at hb
      split at hb
      · simp only [drop_one_killHead] at hb; exact hb
      · exact hb

lemma tailDead_reach (B : Backend) (tr : List Ev) (s : Sys) (h : tailDead s) :
    tailDead (reach B tr s) := by
  induction tr generalizing s with
  | nil => exact h
  | cons e tr ih => exact ih _ (tailDead_stepEv B e s h)

lemma aliveCount_of_tailDead (s : Sys) (h : tailDead s) :
    aliveCount s = if isRunning s then 1 else 0 := by
  unfold aliveCount isRunning
  cases hl : s.threads with
  | nil => simp
  | cons b ts =>
      have hts : List.count true ts = 0 := by
        apply List.count_eq_zero.mpr
        intro hmem
        have := h true (by rw [hl]; simpa using hmem)
        simp at this
      cases b <;> simp [List.count_cons, hts]

end Helpers

/-- C8: for every step whose type is not `wait`, if the cancellation signal
is set when `do_step` begins, the step is skipped entirely: no backend call
is attempted, the held set is unchanged, and no error is raised. -/
theorem cancelled_step_skipped (B : Backend) (s : Step) (hold : List String)
    (h : s.type ≠ some "wait") :
    do_step B s true hold = ⟨[], hold, none⟩ := by
  simp [do_step, h]

theorem cancelled_step_skipped_witness :
    ({ type := some "key", key := some "a" } : Step).type ≠ some "wait" ∧
    do_step (fun _ => true) { type := some "key", key := some "a" } true ["key:z"] =
      ⟨[], ["key:z"], none⟩ :=
  ⟨by decide, cancelled_step_skipped (fun _ => true) _ ["key:z"] (by decide)⟩

/-- C5: a `combo` step presses the listed identifiers in order, then
releases them in reverse order, and never touches the held set (for any
backend, including failing ones). -/
theorem combo_lifo_order :
    (∀ (B : Backend) (s : Step) (hold : List String),
       s.type = some "combo" → (∀ c, B c = true) →
       do_step B s false hold =
         ⟨s.keys.map (fun rk => .keyDown (to_pdi_key rk)) ++
          s.keys.reverse.map (fun rk => .keyUp (to_pdi_key rk)), hold, none⟩) ∧
    (∀ (B : Backend) (s : Step) (hold : List String),
       s.type = some "combo" → (do_step B s false hold).hold = hold) := by
  constructor
  · intro B s hold hty hB
    by_cases hk : s.keys = []
    · simp [do_step, do_step_core, hty, hk]
    · simp [do_step, do_step_core, hty, hk, stepCalls, runCalls_ok B _ hB]
  · intro B s hold hty
    by_cases hk : s.keys = []
    · simp [do_step, do_step_core, hty, hk]
    · simp [do_step, do_step_core, hty, hk, stepCalls]

theorem combo_lifo_order_witness :
    (({ type := some "combo", keys := ["Key.ctrl", "c"] } : Step).type = some "combo") ∧
    (∀ c, (fun _ => true : Backend) c = true) ∧
    do_step (fun _ => true) { type := some "combo", keys := ["Key.ctrl", "c"] } false [] =
      ⟨[.keyDown "ctrl", .keyDown "c", .keyUp "c", .keyUp "ctrl"], [], none⟩ := by
  refine ⟨rfl, fun c => rfl, ?_⟩
  have h := combo_lifo_order.1 (fun _ => true)
    { type := some "combo", keys := ["Key.ctrl", "c"] } [] rfl (fun c => rfl)
  rw [h]
  decide

/-- C7: a `key` or `mouse_button` step with `action = press` issues the
backend press and only then marks the token down; when the backend press
fails, the held set is left unchanged and the failure is the step's error
(mark-down never happens without a successful press). -/
theorem press_mark_down_atomic :
    (∀ (B : Backend) (s : Step) (hold : List String) (raw : String),
       s.type = some "key" → s.key = some raw → actionOf s = "press" →
       B (.keyDown (to_pdi_key raw)) = false →
       do_step B s false hold = ⟨[.keyDown (to_pdi_key raw)], hold, some .backendError⟩) ∧
    (∀ (B : Backend) (s : Step) (hold : List String) (raw : String),
       s.type = some "key" → s.key = some raw → actionOf s = "press" →
       B (.keyDown (to_pdi_key raw)) = true →
       do_step B s false hold =
         ⟨[.keyDown (to_pdi_key raw)], mark_down hold ("key:" ++ raw), none⟩) ∧
    (∀ (B : Backend) (s : Step) (hold : List String) (b : String),
       s.type = some "mouse_button" → actionOf s = "press" →
       to_pdi_button (buttonOf s) = .ok b →
       B (.mouseDown b) = false →
       do_step B s false hold = ⟨[.mouseDown b], hold, some .backendError⟩) ∧
    (∀ (B : Backend) (s : Step) (hold : List String) (b : String),
       s.type = some "mouse_button" → actionOf s = "press" →
       to_pdi_button (buttonOf s) = .ok b →
       B (.mouseDown b) = true →
       do_step B s false hold =
         ⟨[.mouseDown b], mark_down hold ("mouse:" ++ buttonOf s), none⟩) := by
  refine ⟨?_, ?_, ?_, ?_⟩
  · intro B s hold raw hty hkey hact hB
    simp [do_step, do_step_core, hty, hkey, hact, hB]
  · intro B s hold raw hty hkey hact hB
    simp [do_step, do_step_core, hty, hkey, hact, hB]
  · intro B s hold b hty hact hbtn hB
    simp [do_step, do_step_core, hty, hact, hbtn, hB]
  · intro B s hold b hty hact hbtn hB
    simp [do_step, do_step_core, hty, hact, hbtn, hB]

theorem press_mark_down_atomic_witness :
    (({ type := some "key", key := some "a", action := some "press" } : Step).type
        = some "key") ∧
    actionOf { type := some "key", key := some "a", action := some "press" } = "press" ∧
    (fun _ => false : Backend) (.keyDown (to_pdi_key "a")) = false ∧
    do_step (fun _ => false) { type := some "key", key := some "a", action := some "press" }
        false ["mouse:left"] =
      ⟨[.keyDown (to_pdi_key "a")], ["mouse:left"], some .backendError⟩ :=
  ⟨rfl, rfl, rfl,
   press_mark_down_atomic.1 (fun _ => false)
     { type := some "key", key := some "a", action := some "press" }
     ["mouse:left"] "a" rfl rfl rfl rfl⟩

/-- C3: `release_all` snapshots and empties the held set and issues one
backend release per previously-held (well-formed) token; run twice in a row
the second call performs no backend calls, and on an empty held set it
performs none at all. -/
theorem release_all_idempotent :
    (∀ (B : Backend) (h : List String), (release_all B h).1 = []) ∧
    (∀ (B : Backend) (h : List String),
       (release_all B ((release_all B h).1)).2 = []) ∧
    (∀ (B : Backend), (release_all B []).2 = []) ∧
    (∀ (B : Backend) (h : List String), (∀ t ∈ h, goodToken t) →
       (release_all B h).2.length = h.length) := by
  refine ⟨fun B h => rfl, fun B h => rfl, fun B => rfl, ?_⟩
  intro B h hgood
  induction h with
  | nil => rfl
  | cons t ts ih =>
      have h1 : (attemptRelease B t).1.length = 1 :=
        attemptRelease_length B t (hgood t (List.mem_cons_self t ts))
      have h2 := ih (fun u hu => hgood u (List.mem_cons_of_mem t hu))
      simp only [release_all, sweep, List.length_append, List.length_cons, h1] at *
      omega

theorem release_all_idempotent_witness :
    (∀ t ∈ (["key:a", "mouse:left"] : List String), goodToken t) ∧
    (release_all (fun _ => true) ["key:a", "mouse:left"]).2.length =
      (["key:a", "mouse:left"] : List String).length := by
  have hgood : ∀ t ∈ (["key:a", "mouse:left"] : List String), goodToken t := by
    intro t ht
    rcases List.mem_cons.mp ht with rfl | ht
    · exact ⟨"key", "a", by decide, Or.inl rfl⟩
    · rcases List.mem_cons.mp ht with rfl | ht
      · exact ⟨"mouse", "left", by decide, Or.inr ⟨rfl, by decide⟩⟩
      · cases ht
  exact ⟨hgood, release_all_idempotent.2.2.2 (fun _ => true) _ hgood⟩

/-- C4: the sweep of `release_all` is best-effort: which release call is
attempted for a token does not depend on the backend's failures at all, and
every token of the held set gets its release attempt even when the attempts
around it fail — the per-token exceptions are swallowed and never escape to
the caller. -/
theorem release_all_best_effort_sweep :
    (∀ (B B2 : Backend) (t : String),
       (attemptRelease B t).1 = (attemptRelease B2 t).1) ∧
    (∀ (B : Backend) (h1 h2 : List String) (t : String),
       (release_all B (h1 ++ t :: h2)).2 =
         sweep B h1 ++ (attemptRelease B t).1 ++ sweep B h2) := by
  constructor
  · intro B B2 t
    unfold attemptRelease
    cases hs : splitToken t with
    | none => rfl
    | some kv =>
        obtain ⟨k, v⟩ := kv
        by_cases hk : k = "key"
        · cases hB : B (.keyUp (to_pdi_key v)) <;>
            cases hB2 : B2 (.keyUp (to_pdi_key v)) <;> simp [hk, hB, hB2]
        · by_cases hm : k = "mouse"
          · cases hb : to_pdi_button v with
            | error e => simp [hk, hm, hb]
            | ok b =>
                cases hB : B (.mouseUp b) <;>
                  cases hB2 : B2 (.mouseUp b) <;> simp [hk, hm, hb, hB, hB2]
          · simp [hk, hm]
  · intro B h1 h2 t
    simp only [release_all]
    rw [sweep_append]
    simp [sweep, List.append_assoc]

/-- C10: a `key` or `mouse_button` step that omits the `action` field is
executed exactly as `action = tap` — in general, `do_step` cannot
distinguish a missing `action` from an explicit `"tap"` — which is a press
immediately followed by a release, with no change to the held set. -/
theorem omitted_action_defaults_tap :
    (∀ (B : Backend) (s : Step) (stopSet : Bool) (hold : List String),
       s.action = none →
       do_step B s stopSet hold = do_step B { s with action := some "tap" } stopSet hold) ∧
    (∀ (B : Backend) (s : Step) (hold : List String) (raw : String),
       (∀ c, B c = true) → s.type = some "key" → s.key = some raw → s.action = none →
       do_step B s false hold =
         ⟨[.keyDown (to_pdi_key raw), .keyUp (to_pdi_key raw)], hold, none⟩) ∧
    (∀ (B : Backend) (s : Step) (hold : List String) (b : String),
       (∀ c, B c = true) → s.type = some "mouse_button" → s.action = none →
       to_pdi_button (buttonOf s) = .ok b →
       do_step B s false hold = ⟨[.mouseDown b, .mouseUp b], hold, none⟩) := by
  refine ⟨?_, ?_, ?_⟩
  · intro B s stopSet hold ha
    obtain ⟨ty, ky, ac, ks, tx, bt, cn, md, x, y, dx, dy, sec⟩ := s
    simp only [Step.action] at ha
    subst ha
    rfl
  · intro B s hold raw hB hty hkey ha
    have hact : actionOf s = "tap" := by simp [actionOf, ha]
    simp [do_step, do_step_core, hty, hkey, hact, stepCalls, runCalls_ok B _ hB]
  · intro B s hold b hB hty ha hbtn
    have hact : actionOf s = "tap" := by simp [actionOf, ha]
    simp [do_step, do_step_core, hty, hact, hbtn, stepCalls, runCalls_ok B _ hB]

theorem omitted_action_defaults_tap_witness :
    (∀ c, (fun _ => true : Backend) c = true) ∧
    (({ type := some "key", key := some "x" } : Step).type = some "key") ∧
    (({ type := some "key", key := some "x" } : Step).action = none) ∧
    do_step (fun _ => true) { type := some "key", key := some "x" } false ["key:a"] =
      ⟨[.keyDown (to_pdi_key "x"), .keyUp (to_pdi_key "x")], ["key:a"], none⟩ :=
  ⟨fun _ => rfl, rfl, rfl,
   omitted_action_defaults_tap.2.1 (fun _ => true)
     { type := some "key", key := some "x" } ["key:a"] "x" (fun _ => rfl) rfl rfl rfl⟩

/-- C2: `stop` sets the cancellation signal and immediately runs
`release_all`, so the held set is empty once it returns, whatever the run
state and held set were; called while already idle with nothing held it is
harmless — the state only gains the cancellation flag, with no error and no
backend call. -/
theorem stop_sets_signal_and_empties_held :
    (∀ (B : Backend) (s : Sys),
       (stepEv B .stop s).hold = [] ∧ (stepEv B .stop s).stopEvent = true) ∧
    (∀ (B : Backend) (s : Sys), isRunning s = false → s.hold = [] →
       stepEv B .stop s = { s with stopEvent := true }) := by
  constructor
  · intro B s
    exact ⟨rfl, rfl⟩
  · intro B s hr hh
    obtain ⟨f1, f2, f3, f4, f5, f6, f7, f8, f9, f10, f11, f12, f13⟩ := s
    simp only [Sys.hold] at hh
    subst hh
    simp [stepEv, release_all, sweep]

theorem stop_sets_signal_and_empties_held_witness :
    isRunning (initSys false []) = false ∧ (initSys false []).hold = [] ∧
    stepEv (fun _ => true) .stop (initSys false []) =
      { (initSys false []) with stopEvent := true } :=
  ⟨rfl, rfl,
   stop_sets_signal_and_empties_held.2 (fun _ => true) (initSys false []) rfl rfl⟩

/-- C1: whenever the background execution activity ends — in particular when
a fatal error (unknown step tag, out-of-enum action/mode, backend failure)
is pending — the `finally` cleanup runs `release_all` exactly once as the
guaranteed sequence, the held set is left empty, the runner is `Idle`
afterwards, and the escaped error is absorbed and logged at the thread
boundary instead of crashing the control activity: the system remains fully
operational and a subsequent `start` spawns a new run. -/
theorem run_exit_guaranteed_cleanup :
    ∀ (B : Backend) (s : Sys), isRunning s = true → exitCond s = true →
      (stepEv B .threadExit s).hold = [] ∧
      isRunning (stepEv B .threadExit s) = false ∧
      (stepEv B .threadExit s).calls = s.calls ++ (release_all B s.hold).2 ∧
      (stepEv B .threadExit s).errLog = s.errLog ++ s.runErr.toList ∧
      isRunning (stepEv B .start (stepEv B .threadExit s)) = true := by
  intro B s h1 h2
  have hguard : (isRunning s && exitCond s) = true := by rw [h1, h2]; rfl
  have hexit : stepEv B .threadExit s =
      { s with threads := killHead s.threads,
               hold := (release_all B s.hold).1,
               calls := s.calls ++ (release_all B s.hold).2,
               errLog := s.errLog ++ s.runErr.toList } := by
    simp [stepEv, hguard]
  have hdead : isRunning (stepEv B .threadExit s) = false := by
    rw [hexit]; simpa [isRunning] using killHead_headD s.threads
  refine ⟨by rw [hexit]; rfl, hdead, by rw [hexit], by rw [hexit], ?_⟩
  rw [stepEv]
  rw [hdead]
  simp [isRunning]

theorem run_exit_guaranteed_cleanup_witness :
    isRunning failedRunSys = true ∧
    exitCond failedRunSys = true ∧
    (stepEv (fun _ => true) .threadExit failedRunSys).hold = [] ∧
    isRunning (stepEv (fun _ => true) .threadExit failedRunSys) = false := by
  have h := run_exit_guaranteed_cleanup (fun _ => true) failedRunSys rfl rfl
  exact ⟨rfl, rfl, h.1, h.2.1⟩

/-- C9: starting from the initial state, after any trace of control and
thread events there is at most one alive background activity — exactly one
while `Running`, none while `Idle`; `start` is a no-op when already running,
and otherwise clears the cancellation signal and spawns exactly one
activity. -/
theorem start_spawns_single_activity :
    ∀ (B : Backend) (loop : Bool) (steps : List Step) (tr : List Ev) (s : Sys),
      s = reach B tr (initSys loop steps) →
      aliveCount s ≤ 1 ∧
      (isRunning s = true → aliveCount s = 1) ∧
      (isRunning s = false → aliveCount s = 0) ∧
      (isRunning s = true → stepEv B .start s = s) ∧
      (isRunning s = false →
        (stepEv B .start s).stopEvent = false ∧
        aliveCount (stepEv B .start s) = 1) := by
  intro B loop steps tr s hs
  have hinit : tailDead (initSys loop steps) := by
    intro b hb
    simp [initSys] at hb
  have htd : tailDead s := hs ▸ tailDead_reach B tr _ hinit
  have hcount := aliveCount_of_tailDead s htd
  refine ⟨?_, ?_, ?_, ?_, ?_⟩
  · rw [hcount]; split <;> omega
  · intro hr; rw [hcount, hr]; rfl
  · intro hr; rw [hcount, hr]; rfl
  · intro hr; simp [stepEv, hr]
  · intro hr
    have hz : aliveCount s = 0 := by rw [hcount, hr]; rfl
    constructor
    · simp [stepEv, hr]
    · have : stepEv B .start s =
          { s with stopEvent := false, threads := true :: s.threads,
                   pc := 0, runErr := none } := by
        simp [stepEv, hr]
      rw [this]
      simp only [aliveCount, List.count_cons] at *
      simp [hz]

theorem start_spawns_single_activity_witness :
    (initSys false [] = reach (fun _ => true) [] (initSys false [])) ∧
    aliveCount (initSys false []) ≤ 1 ∧
    (isRunning (initSys false []) = false →
      (stepEv (fun _ => true) .start (initSys false [])).stopEvent = false ∧
      aliveCount (stepEv (fun _ => true) .start (initSys false [])) = 1) := by
  have h := start_spawns_single_activity (fun _ => true) false [] [] (initSys false []) rfl
  exact ⟨rfl, h.1, fun hr => h.2.2.2.2 hr⟩

/-- C6 counterexample: a macro step whose `action` is outside
`tap`/`press`/`release` is accepted by `MacroTool.__init__` without any
error, and the invalid value surfaces only when the step is executed, as a
runtime `ValueError` — refuting construction-time validation. -/
theorem step_validation_cex :
    (MacroTool.init badActionCfg).isOk = true ∧
    (do_step (fun _ => true) badActionStep false []).err =
      some (.valueError "key.action must be tap/press/release") := by
  constructor
  · rfl
  · decide

/-- C6 amended: step fields are not validated at construction —
`MacroTool.__init__` succeeds or fails independently of the macro contents —
and an out-of-enum `action` or `mode` value instead raises a fatal
`ValueError` when the step executor reaches that step at runtime. -/
theorem step_validation_at_runtime :
    (∀ (cfg : Config) (m1 m2 : List Step),
       (MacroTool.init { cfg with steps := m1 }).isOk =
         (MacroTool.init { cfg with steps := m2 }).isOk) ∧
    (∀ (B : Backend) (s : Step) (hold : List String),
       s.type = some "key" → s.key.isSome = true →
       actionOf s ≠ "tap" → actionOf s ≠ "press" → actionOf s ≠ "release" →
       (do_step B s false hold).err =
         some (.valueError "key.action must be tap/press/release")) ∧
    (∀ (B : Backend) (s : Step) (hold : List String),
       s.type = some "mouse_move" →
       modeOf s ≠ "relative" → modeOf s ≠ "absolute" →
       (do_step B s false hold).err =
         some (.valueError "mouse_move.mode must be relative/absolute")) := by
  refine ⟨?_, ?_, ?_⟩
  · intro cfg m1 m2
    unfold MacroTool.init
    cases optParseKey (truthy cfg.trigger_key) <;>
      cases optParseKey (truthy cfg.quit_key) <;> rfl
  · intro B s hold hty hkey hta htp htr
    obtain ⟨raw, hraw⟩ := Option.isSome_iff_exists.mp hkey
    simp [do_step, do_step_core, hty, hraw, hta, htp, htr]
  · intro B s hold hty hrel habs
    simp [do_step, do_step_core, hty, hrel, habs]

theorem step_validation_at_runtime_witness :
    badActionStep.type = some "key" ∧
    badActionStep.key.isSome = true ∧
    actionOf badActionStep ≠ "tap" ∧
    (do_step (fun _ => true) badActionStep false []).err =
      some (.valueError "key.action must be tap/press/release") :=
  ⟨rfl, rfl, by decide,
   step_validation_at_runtime.2.1 (fun _ => true) badActionStep []
     rfl rfl (by decide) (by decide) (by decide)⟩
